import Mathlib

/-!
Verification of the lz-app cross-chain transfer application.

This file gives a shallow embedding of the algorithmic core of the
repository — the status-rank merge of the Status Reconciliation Engine
(`src/app/page.tsx`), the On-Chain Packet Correlator
(`src/app/api/lz-status-onchain/route.ts`), the SendParam construction
(`src/lib/contracts.ts`), the send-flow validation and fallback logic of
`sendCrossChain` (`src/app/page.tsx`), the aggregator proxy
(`src/app/api/agg-status/route.ts`) and the env-check diagnostics route —
and proves the specification's claims about them.
-/

namespace LzApp

/-! ## Generic JavaScript-style string helpers -/

/-- Model of JavaScript `String.prototype.padStart(n, c)`: pad on the left
with character `c` up to length `n`; a string already at least `n` long is
returned unchanged. -/
def padStartStr (s : String) (n : Nat) (c : Char) : String :=
  String.mk (List.replicate (n - s.length) c) ++ s

/-- Model of the JavaScript `||` operator on possibly-absent strings:
the first operand wins unless it is absent (`none`, i.e. `undefined`/`null`)
or the empty string (falsy). -/
def jsOrStr (a b : Option String) : Option String :=
  match a with
  | some s => if s = "" then b else some s
  | none => b

/-- JavaScript truthiness of a possibly-absent string: `undefined`, `null`
and `""` are falsy, every other string is truthy. -/
def truthyStr (v : Option String) : Bool :=
  match v with
  | some s => s ≠ ""
  | none => false

/-- Model of JavaScript `String.prototype.toLowerCase()` (equivalently
`String.toLower`, stated over the character list so that the kernel can
evaluate it): each character is lowercased. -/
def toLowerStr (s : String) : String :=
  String.mk (s.data.map Char.toLower)

/-- Model of JavaScript `String.prototype.includes(needle)`: substring
containment. -/
def containsSub (hay needle : String) : Bool :=
  (List.range (hay.data.length + 1)).any fun i =>
    needle.data.isPrefixOf (hay.data.drop i)

/-- Model of JavaScript `Array.prototype.indexOf` on a list of strings:
the index of the first occurrence, `none` when absent (JS returns `-1`;
the caller `getStatusRank` maps `-1` to `0`, so `Option` is faithful). -/
def indexOfStr (l : List String) (s : String) : Option Nat :=
  match l with
  | [] => none
  | x :: xs => if x = s then some 0 else (indexOfStr xs s).map (· + 1)

/-! ## Status ranking and the poll merge (src/app/page.tsx) -/

/-- The fixed stage order of `getStatusRank` in `src/app/page.tsx`. -/
def stageOrder : List String :=
  ["unknown", "sent", "dvn_verifying", "committed", "executing", "executed"]

/-- Embedding of `getStatusRank` (`src/app/page.tsx`):
`(s || 'unknown').toLowerCase()` is looked up in `stageOrder`; a missing
entry (JS `indexOf` = -1) ranks as 0. `none` models `undefined`/`null`. -/
def getStatusRank (s : Option String) : Nat :=
  match indexOfStr stageOrder (toLowerStr (s.getD "unknown")) with
  | some i => i
  | none => 0

/-- The LayerZero worker status object held in `lzWorkerStatus`
(`src/app/page.tsx`): `stage` is always a string (`json?.stage || 'unknown'`),
the remaining fields are nullable. -/
structure WorkerStatus where
  stage : String
  networkBase : Option String
  dvn : Option String
  sealer : Option String
  dest : Option String
  dstTx : Option String
deriving DecidableEq, Repr

/-- The aggregator status object held in `aggStatus` (`src/app/page.tsx`);
only the field the merge inspects (`currentStatus`) plus the guid. -/
structure AggStatus where
  currentStatus : Option String
  guid : Option String
deriving DecidableEq, Repr

/-- Rank of the currently published worker status
(`getStatusRank(prev?.stage)`). -/
def workerRank (p : Option WorkerStatus) : Nat :=
  getStatusRank (p.map WorkerStatus.stage)

/-- Rank of the currently published aggregator status
(`getStatusRank(prev?.currentStatus)`). -/
def aggRank (p : Option AggStatus) : Nat :=
  getStatusRank (p.bind AggStatus.currentStatus)

/-- The effective stage shown by the UI for the worker slot
(`lzWorkerStatus?.stage || 'unknown'`). -/
def effectiveWorkerStage (p : Option WorkerStatus) : String :=
  match p with
  | none => "unknown"
  | some w => if w.stage = "" then "unknown" else w.stage

/-- Embedding of the functional update passed to `setLzWorkerStatus` on a
successful on-chain fetch (`src/app/page.tsx`, `tick`): replace when there
is no previous value or the new rank is at least the previous rank. -/
def mergeWorker (prev : Option WorkerStatus) (next : WorkerStatus) :
    Option WorkerStatus :=
  match prev with
  | none => some next
  | some p =>
      if getStatusRank (some next.stage) ≥ getStatusRank (some p.stage) then
        some next
      else
        some p

/-- Embedding of the functional update passed to `setLzWorkerStatus` when
the on-chain fetch fails (`prev => prev || { stage: 'unknown' }`). -/
def mergeWorkerErr (prev : Option WorkerStatus) : Option WorkerStatus :=
  match prev with
  | some p => some p
  | none => some ⟨"unknown", none, none, none, none, none⟩

/-- Embedding of the functional update passed to `setAggStatus` on a
successful aggregator fetch (`src/app/page.tsx`, `tick`). -/
def mergeAgg (prev : Option AggStatus) (json : AggStatus) : Option AggStatus :=
  match prev with
  | none => some json
  | some p =>
      if getStatusRank json.currentStatus ≥ getStatusRank p.currentStatus then
        some json
      else
        some p

/-- One tick's effect on the aggregator slot: a successful fetch is merged,
a failed fetch (non-2xx response, network error, decode error) performs no
state update at all (`src/app/page.tsx`, `tick`, the empty `else`/`catch`
branches around the `setAggStatus` call). -/
def aggTickStep (prev : Option AggStatus) (fetch : Option AggStatus) :
    Option AggStatus :=
  match fetch with
  | some json => mergeAgg prev json
  | none => prev

/-- One tick's effect on the worker slot: a successful fetch is merged, a
failed fetch runs `prev => prev || { stage: 'unknown' }`
(`src/app/page.tsx`, `tick`). -/
def workerTickStep (prev : Option WorkerStatus) (fetch : Option WorkerStatus) :
    Option WorkerStatus :=
  match fetch with
  | some next => mergeWorker prev next
  | none => mergeWorkerErr prev

/-- A worker status carrying only a stage name (all nullable fields null),
as produced by the tick for a response with no extra detail. -/
def mkW (s : String) : WorkerStatus :=
  ⟨s, none, none, none, none, none⟩

/-! ## On-Chain Packet Correlator (src/app/api/lz-status-onchain/route.ts) -/

/-- The decoded `origin` tuple of a `PacketDelivered` / `PacketVerified`
event: `(srcEid, sender, nonce)`. -/
structure PacketOrigin where
  srcEid : Int
  sender : String
  nonce : Int
deriving DecidableEq, Repr

/-- Result of `endpointIface.parseLog(log)`: the event name, its decoded
`origin` argument (absent when the log decodes without one) and the decoded
`receiver`. -/
structure ParsedLog where
  name : String
  origin : Option PacketOrigin
  receiver : Option String
deriving DecidableEq, Repr

/-- A raw destination-chain log as iterated by the route: `parsed = none`
models a log on which `parseLog` throws (the `catch` branch skips it). -/
structure RawLog where
  parsed : Option ParsedLog
  transactionHash : String
deriving DecidableEq, Repr

/-- A transaction receipt as consulted by the route: nullable `status` and
`blockNumber`. -/
structure TxReceipt where
  status : Option Nat
  blockNumber : Option Int
deriving DecidableEq, Repr

/-- Embedding of the route's `pad32` helper:
`'0x' + addr.toLowerCase().slice(2).padStart(64, '0')`. -/
def pad32 (addr : String) : String :=
  "0x" ++ padStartStr ((toLowerStr addr).drop 2) 64 '0'

/-- The route's per-log match test (the loop body over `deliveredLogs`
and `verifiedLogs`): the log must decode (no thrown error), carry the
expected event name and an `origin`, and the origin's `srcEid` must equal
the source network's eid while its lowercased `sender` equals the
lowercased expected (32-byte left-padded) sender. -/
def logMatches (eventName : String) (expectedSrcEid : Int)
    (expectedSender : String) (log : RawLog) : Bool :=
  match log.parsed with
  | none => false
  | some p =>
    if p.name ≠ eventName then false
    else
      match p.origin with
      | none => false
      | some o =>
        o.srcEid == expectedSrcEid &&
        toLowerStr o.sender == toLowerStr expectedSender

/-- Embedding of `sentOk`: `(srcReceipt.status ?? 0) === 1`. -/
def sentOkB (r : TxReceipt) : Bool :=
  (r.status.getD 0) == 1

/-- Embedding of the route's stage derivation: first delivered match wins
(`executed`), else first verified match (`verified`), else `inflight` /
`unknown` from the source receipt. -/
def onchainStage (srcEid : Int) (oftSrc : String)
    (deliveredLogs verifiedLogs : List RawLog)
    (srcReceipt : Option TxReceipt) : String :=
  match deliveredLogs.find? (logMatches "PacketDelivered" srcEid (pad32 oftSrc)) with
  | some _ => "executed"
  | none =>
    match verifiedLogs.find? (logMatches "PacketVerified" srcEid (pad32 oftSrc)) with
    | some _ => "verified"
    | none =>
      match srcReceipt with
      | some r => if sentOkB r then "inflight" else "unknown"
      | none => "inflight"

/-- Embedding of the route's scan-range computation:
`toBlock` is the current destination block height and
`fromBlock = srcReceipt && srcReceipt.blockNumber != null ?
Number(srcReceipt.blockNumber) : Math.max(0, Number(toBlock) - recentWindow)`
with `recentWindow = Number(scanWindow ?? 20000)`. -/
def computeScanRange (srcReceipt : Option TxReceipt) (toBlock : Int)
    (scanWindow : Option Int) : Int × Int :=
  let recentWindow := scanWindow.getD 20000
  let fromBlock :=
    match srcReceipt with
    | some r =>
      match r.blockNumber with
      | some bn => bn
      | none => max 0 (toBlock - recentWindow)
    | none => max 0 (toBlock - recentWindow)
  (fromBlock, toBlock)

/-! ## SendParam construction (src/lib/contracts.ts) -/

/-- True when every character of `s` is a decimal digit (an empty string
passes, matching the regex groups `[0-9]*` of the decimal parser). -/
def isDigitStr (s : String) : Bool :=
  s.data.all Char.isDigit

/-- Value of a string of decimal digits. -/
def decToNat (s : String) : Nat :=
  s.data.foldl (fun n c => n * 10 + (c.toNat - 48)) 0

/-- Model of `value.split('.')` on the character list (structurally
recursive so the kernel can evaluate it; same result as splitting the
string on each dot). -/
def splitDotAux : List Char → List Char → List (List Char)
  | [], acc => [acc.reverse]
  | c :: cs, acc =>
    if c = '.' then acc.reverse :: splitDotAux cs []
    else splitDotAux cs (c :: acc)

/-- Split a string on the dot character. -/
def splitOnDot (s : String) : List String :=
  (splitDotAux s.data []).map String.mk

/-- Model of `ethers.parseUnits(value, decimals)` (external library,
ethers v6) restricted to nonnegative decimal strings, the domain of valid
transfer amounts (the send flow rejects non-positive amounts): the string
must be `digits`, `digits.`, `.digits` or `digits.digits` with at least
one digit overall; the fractional part must not exceed `decimals` digits
(ethers throws on excess precision); the result is the value scaled by
`10^decimals`. `none` models a thrown parse error. -/
def parseUnits (value : String) (decimals : Nat) : Option Nat :=
  match splitOnDot value with
  | [w] =>
    if w.length > 0 && isDigitStr w then
      some (decToNat w * 10 ^ decimals)
    else
      none
  | [w, f] =>
    if (w.length + f.length > 0) && isDigitStr w && isDigitStr f
        && f.length ≤ decimals then
      some (decToNat w * 10 ^ decimals + decToNat f * 10 ^ (decimals - f.length))
    else
      none
  | _ => none

/-- Embedding of `addressToBytes32` (`src/lib/contracts.ts`):
`'0x' + address.slice(2).padStart(64, '0')`. -/
def addressToBytes32 (address : String) : String :=
  "0x" ++ padStartStr (address.drop 2) 64 '0'

/-- The destination network configuration fields `buildSendParam` reads
(the TS function looks the config up by key; the embedding passes the
resolved record). -/
structure NetworkConfigL where
  name : String
  eid : Int
deriving DecidableEq, Repr

/-- The `SendParam` record built for the OFT `send` call. -/
structure SendParamL where
  dstEid : Int
  «to» : String
  amountLD : Nat
  minAmountLD : Nat
  extraOptions : String
  composeMsg : String
  oftCmd : String
deriving DecidableEq, Repr

/-- Embedding of `buildSendParam` (`src/lib/contracts.ts`):
`parsedAmount = parseUnits(amount, decimals ?? 18)`,
`minAmountLD = parsedAmount * 9900n / 10000n` (1% slippage floor),
receiver left-padded to bytes32, `extraOptions = extraOptionsOverride ?? "0x"`,
empty compose message and command. `none` models a parseUnits throw. -/
def buildSendParam (dstConfig : NetworkConfigL) (amount : String)
    (receiverAddress : String) (decimals : Option Nat)
    (extraOptionsOverride : Option String) : Option SendParamL :=
  match parseUnits amount (decimals.getD 18) with
  | none => none
  | some parsedAmount =>
    some {
      dstEid := dstConfig.eid
      «to» := addressToBytes32 receiverAddress
      amountLD := parsedAmount
      minAmountLD := parsedAmount * 9900 / 10000
      extraOptions := extraOptionsOverride.getD "0x"
      composeMsg := "0x"
      oftCmd := "0x" }

/-! ## Send submission and fallback (src/app/page.tsx, sendCrossChain) -/

/-- The `(nativeFee, lzTokenFee)` pair returned by `quoteSend`. -/
structure MessagingFee where
  nativeFee : Nat
  lzTokenFee : Nat
deriving DecidableEq, Repr

/-- The fields of a send error the catch handler inspects:
`sendErr?.info?.error?.data?.message` and `sendErr?.message`
(`none` models an absent or non-string field). -/
structure SendErrShape where
  dataMessage : Option String
  message : Option String
deriving DecidableEq, Repr

/-- Embedding of
`const msg = sendErr?.info?.error?.data?.message || sendErr?.message || ""`. -/
def errMessage (e : SendErrShape) : String :=
  (jsOrStr e.dataMessage e.message).getD ""

/-- Outcome of the primary `oft.send` call. -/
inductive PrimarySendResult where
  | ok (txHash : String)
  | err (e : SendErrShape)
deriving DecidableEq, Repr

/-- What the submission step ends up doing: the primary transaction with
its attached value, the raw fallback transaction (recipient, attached
value, gas limit, transaction type), or the error re-thrown unmodified. -/
inductive SubmitOutcome where
  | sent (txHash : String) (value : Nat)
  | fallbackTx («to» : String) (value : Nat) (gasLimit : Nat) (txType : Nat)
  | rethrown (e : SendErrShape)
deriving DecidableEq, Repr

/-- Embedding of
`const totalValue = usingNativeAdapter ? (fee.nativeFee + amtLD) : fee.nativeFee`. -/
def totalValueOf (usingNativeAdapter : Bool) (nativeFee amtLD : Nat) : Nat :=
  if usingNativeAdapter then nativeFee + amtLD else nativeFee

/-- Embedding of the submission try/catch of `sendCrossChain`
(`src/app/page.tsx`): the primary call attaches `totalValue`; on failure,
when the extracted message contains `"missing trie node"` a single raw
legacy-type (`type: 0`) fallback transaction is issued to the OFT contract
with the same `totalValue` and `gasLimit: 600000n`; any other failure is
re-thrown unmodified. -/
def submitSend (usingNativeAdapter : Bool) (fee : MessagingFee) (amtLD : Nat)
    (oftTarget : String) (primary : PrimarySendResult) : SubmitOutcome :=
  match primary with
  | .ok h => .sent h (totalValueOf usingNativeAdapter fee.nativeFee amtLD)
  | .err e =>
    if containsSub (errMessage e) "missing trie node" then
      .fallbackTx oftTarget (totalValueOf usingNativeAdapter fee.nativeFee amtLD)
        600000 0
    else
      .rethrown e

/-! ## Send-flow validation order (src/app/page.tsx, sendCrossChain) -/

/-- Embedding of `balanceWei != null && amtLD > balanceWei`. -/
def exceedsBalance (amtLD : Nat) (balanceWei : Option Nat) : Bool :=
  match balanceWei with
  | some b => decide (amtLD > b)
  | none => false

/-- The network-facing steps of the send flow after amount validation. -/
inductive FlowStep where
  | quoteFee
  | submitTx
deriving DecidableEq, Repr

/-- Embedding of the control flow of `sendCrossChain` around amount
validation: the amount is parsed (a parse error aborts), checked against
the known balance (`amtLD > balanceWei` aborts) and against zero
(`amtLD <= 0n` aborts; amounts are nonnegative here, so the check is
`amtLD = 0`); only then does the flow reach the fee quote
(`oft.quoteSend`) and the transaction submission (`oft.send`). -/
def sendFlowSteps (resolvedAmount : String) (decimals : Nat)
    (balanceWei : Option Nat) : List FlowStep :=
  match parseUnits resolvedAmount decimals with
  | none => []
  | some amtLD =>
    if exceedsBalance amtLD balanceWei then []
    else if amtLD = 0 then []
    else [FlowStep.quoteFee, FlowStep.submitTx]

/-! ## Aggregator proxy endpoint (src/app/api/agg-status/route.ts) -/

/-- The `txHash` field of the request body: absent (`undefined`), a string,
or present with a non-string value. -/
inductive TxHashField where
  | missing
  | strVal (s : String)
  | nonString
deriving DecidableEq, Repr

/-- The upstream aggregator's HTTP response as the proxy sees it:
status code, JSON body when `res.json()` succeeds (opaque payload text),
and the raw text body used by the error branches. -/
structure UpstreamResponse where
  status : Nat
  jsonBody : Option String
  textBody : String
deriving DecidableEq, Repr

/-- The proxy's JSON response: HTTP status plus the fields the handler may
set (`error`, `upstreamStatus`, `hint`, `found`, `body`) and the passthrough
payload on success. -/
structure ApiResponse where
  status : Nat
  error : Option String
  upstreamStatus : Option Nat
  hint : Option String
  found : Option Bool
  body : Option String
  payload : Option String
deriving DecidableEq, Repr

/-- `res.ok` of the Fetch API: status in [200, 299]. -/
def resOk (status : Nat) : Bool :=
  200 ≤ status && status ≤ 299

/-- Embedding of `resolveBase`:
`process.env.STATUS_API_BASE || process.env.NEXT_PUBLIC_STATUS_API_BASE`. -/
def resolveBase (statusApiBase npStatusApiBase : Option String) :
    Option String :=
  jsOrStr statusApiBase npStatusApiBase

/-- The 400 response for a missing, non-string or falsy `txHash`. -/
def badRequestResp : ApiResponse :=
  ⟨400, some "txHash is required", none, none, none, none, none⟩

/-- The 500 response for an unconfigured aggregator base URL. -/
def noBaseResp : ApiResponse :=
  ⟨500, some "STATUS_API_BASE not configured", none,
    some "Set STATUS_API_BASE in env, e.g. https://your-aggregator-host/v1",
    none, none, none⟩

/-- The proxy's handling of the upstream response (after `txHash` and the
base URL validated): on `res.ok` the upstream JSON is passed through (a
JSON decode failure falls into the outer catch, 500); on a non-2xx
upstream, the upstream status is propagated as the response status with
`upstreamStatus` set, a `found:false` body for 404, a credential hint for
401/403, and a generic error otherwise. -/
def aggUpstreamResp (upstream : UpstreamResponse) : ApiResponse :=
  if resOk upstream.status then
    match upstream.jsonBody with
    | some j => ⟨200, none, none, none, none, none, some j⟩
    | none => ⟨500, some "Internal error", none, none, none, none, none⟩
  else
    if upstream.status = 404 then
      ⟨upstream.status, some "Not found", some upstream.status, none,
        some false, some upstream.textBody, none⟩
    else if upstream.status = 401 ∨ upstream.status = 403 then
      ⟨upstream.status, some "Unauthorized", some upstream.status,
        some "Check STATUS_API_USERNAME/PASSWORD", none, none, none⟩
    else
      ⟨upstream.status, some "Upstream error", some upstream.status,
        none, none, some upstream.textBody, none⟩

/-- Embedding of the agg-status `POST` handler
(`src/app/api/agg-status/route.ts`): 400 when `txHash` is missing, not a
string, or falsy; 500 when the resolved base is falsy; otherwise the
upstream handling of `aggUpstreamResp`. -/
def aggStatusPOST (txHash : TxHashField)
    (statusApiBase npStatusApiBase : Option String)
    (upstream : UpstreamResponse) : ApiResponse :=
  match txHash with
  | .missing => badRequestResp
  | .nonString => badRequestResp
  | .strVal s =>
    if s = "" then badRequestResp
    else
      match resolveBase statusApiBase npStatusApiBase with
      | none => noBaseResp
      | some base =>
        if base = "" then noBaseResp
        else aggUpstreamResp upstream

/-! ## Env-check diagnostics endpoint (src/app/api/env-check/route.ts) -/

/-- A network configuration record as read by `getNetworksConfig()` from
the (non-secret) `NEXT_PUBLIC_*` variables; only the fields the env-check
route inspects. -/
structure NetCfg where
  name : String
  chainId : Int
  rpcHttp : String
  endpointV2 : String
  oft : String
  explorerTxBase : Option String
deriving DecidableEq, Repr

/-- The secret configuration values the env-check route touches. -/
structure EnvSecrets where
  statusApiBase : Option String
  npStatusApiBase : Option String
  statusApiUsername : Option String
  statusApiPassword : Option String
deriving DecidableEq, Repr

/-- The per-network presence record built by the route. -/
structure NetPresence where
  name : String
  chainId : Int
  rpcHttpPresent : Bool
  endpointV2Present : Bool
  oftPresent : Bool
  explorerTxBasePresent : Bool
deriving DecidableEq, Repr

/-- The aggregator presence booleans of the response. -/
structure AggPresence where
  basePresent : Bool
  usernamePresent : Bool
  passwordPresent : Bool
deriving DecidableEq, Repr

/-- The env-check response shape. -/
structure EnvCheckResponse where
  ok : Bool
  networks : Option (List (String × NetPresence))
  networksError : Option String
  aggregator : AggPresence
deriving DecidableEq, Repr

/-- The per-network presence mapping of the route's loop body. -/
def netPresence (c : NetCfg) : NetPresence :=
  { name := c.name
    chainId := c.chainId
    rpcHttpPresent := c.rpcHttp ≠ ""
    endpointV2Present := c.endpointV2 ≠ ""
    oftPresent := c.oft ≠ ""
    explorerTxBasePresent := truthyStr c.explorerTxBase }

/-- Embedding of the env-check `GET` handler: reports per-network presence
booleans (or a `networksError` message when `getNetworksConfig()` throws)
and presence booleans for the aggregator secrets, computed with JS `!!`
truthiness. -/
def envCheckGET (networksRes : Except String (List (String × NetCfg)))
    (env : EnvSecrets) : EnvCheckResponse :=
  match networksRes with
  | .ok cfgs =>
    { ok := true
      networks := some (cfgs.map fun kc => (kc.1, netPresence kc.2))
      networksError := none
      aggregator := {
        basePresent := truthyStr env.statusApiBase
          || truthyStr env.npStatusApiBase
        usernamePresent := truthyStr env.statusApiUsername
        passwordPresent := truthyStr env.statusApiPassword } }
  | .error msg =>
    { ok := true
      networks := none
      networksError := some msg
      aggregator := {
        basePresent := truthyStr env.statusApiBase
          || truthyStr env.npStatusApiBase
        usernamePresent := truthyStr env.statusApiUsername
        passwordPresent := truthyStr env.statusApiPassword } }

/-- Replace each truthy secret value by a fixed placeholder, keeping
absence and emptiness as they are (so truthiness is preserved). -/
def redactSecret (v : Option String) : Option String :=
  match v with
  | none => none
  | some s => if s = "" then some "" else some "redacted"

/-- Redact all secrets of an environment. -/
def redactEnv (env : EnvSecrets) : EnvSecrets :=
  { statusApiBase := redactSecret env.statusApiBase
    npStatusApiBase := redactSecret env.npStatusApiBase
    statusApiUsername := redactSecret env.statusApiUsername
    statusApiPassword := redactSecret env.statusApiPassword }

/-! ## Lemmas about the rank function and the merge -/

theorem indexOfStr_lt_length {l : List String} {s : String} {i : Nat}
    (h : indexOfStr l s = some i) : i < l.length := by
  induction l generalizing i with
  | nil => simp [indexOfStr] at h
  | cons x xs ih =>
    simp only [indexOfStr] at h
    by_cases hx : x = s
    · rw [if_pos hx] at h
      cases h
      simp
    · rw [if_neg hx] at h
      cases hxs : indexOfStr xs s with
      | none => rw [hxs] at h; simp at h
      | some j =>
        rw [hxs] at h
        simp only [Option.map_some', Option.some.injEq] at h
        have := ih hxs
        simp only [List.length_cons]
        omega

theorem indexOfStr_eq_none {l : List String} {s : String}
    (h : s ∉ l) : indexOfStr l s = none := by
  induction l with
  | nil => rfl
  | cons x xs ih =>
    simp only [List.mem_cons, not_or] at h
    have hx : x ≠ s := fun hh => h.1 hh.symm
    simp only [indexOfStr, if_neg hx, ih h.2, Option.map_none']

theorem getStatusRank_le_five (s : Option String) : getStatusRank s ≤ 5 := by
  unfold getStatusRank
  cases h : indexOfStr stageOrder (toLowerStr (s.getD "unknown")) with
  | none => exact Nat.zero_le 5
  | some i =>
    have hlen := indexOfStr_lt_length h
    have h6 : stageOrder.length = 6 := rfl
    show i ≤ 5
    omega

theorem workerRank_mergeWorker (p : Option WorkerStatus) (n : WorkerStatus) :
    workerRank (mergeWorker p n)
      = max (workerRank p) (getStatusRank (some n.stage)) := by
  cases p with
  | none =>
    show getStatusRank (some n.stage)
      = max (getStatusRank none) (getStatusRank (some n.stage))
    rw [(by decide : getStatusRank none = 0), Nat.zero_max]
  | some q =>
    show workerRank
        (if getStatusRank (some n.stage) ≥ getStatusRank (some q.stage)
          then some n else some q)
      = max (workerRank (some q)) (getStatusRank (some n.stage))
    by_cases h : getStatusRank (some n.stage) ≥ getStatusRank (some q.stage)
    · rw [if_pos h]
      show getStatusRank (some n.stage)
        = max (getStatusRank (some q.stage)) (getStatusRank (some n.stage))
      omega
    · rw [if_neg h]
      show getStatusRank (some q.stage)
        = max (getStatusRank (some q.stage)) (getStatusRank (some n.stage))
      omega

theorem workerRank_foldl (p : Option WorkerStatus) (l : List WorkerStatus) :
    workerRank (List.foldl mergeWorker p l)
      = List.foldl (fun r n => max r (getStatusRank (some n.stage)))
          (workerRank p) l := by
  induction l generalizing p with
  | nil => rfl
  | cons x xs ih =>
    simp only [List.foldl_cons]
    rw [ih, workerRank_mergeWorker]

theorem aggRank_mergeAgg (p : Option AggStatus) (j : AggStatus) :
    aggRank (mergeAgg p j) = max (aggRank p) (getStatusRank j.currentStatus) := by
  cases p with
  | none =>
    show getStatusRank j.currentStatus
      = max (getStatusRank none) (getStatusRank j.currentStatus)
    rw [(by decide : getStatusRank none = 0), Nat.zero_max]
  | some q =>
    show aggRank
        (if getStatusRank j.currentStatus ≥ getStatusRank q.currentStatus
          then some j else some q)
      = max (aggRank (some q)) (getStatusRank j.currentStatus)
    by_cases h : getStatusRank j.currentStatus ≥ getStatusRank q.currentStatus
    · rw [if_pos h]
      show getStatusRank j.currentStatus
        = max (getStatusRank q.currentStatus) (getStatusRank j.currentStatus)
      omega
    · rw [if_neg h]
      show getStatusRank q.currentStatus
        = max (getStatusRank q.currentStatus) (getStatusRank j.currentStatus)
      omega

/-- C1: for one fixed transfer, the published status stage is monotonically
non-decreasing under the poll merge: one tick never lowers the published
rank of either slot; a freshly fetched status replaces the previously
published one exactly when its rank is at least the previous rank and is
discarded otherwise; and a failed fetch (non-2xx, network error or decode
error) leaves the previously published status unchanged — the aggregator
error branch performs no update, and the worker error branch keeps the
previous object (only seeding `unknown` when nothing was published yet,
which leaves the effective displayed stage unchanged). -/
theorem merge_monotone_no_regress_c1
    (prevA : Option AggStatus) (fa : Option AggStatus)
    (prevW : Option WorkerStatus) (fw : Option WorkerStatus)
    (json : AggStatus) (next : WorkerStatus) :
    aggRank (aggTickStep prevA fa) ≥ aggRank prevA ∧
    workerRank (workerTickStep prevW fw) ≥ workerRank prevW ∧
    (getStatusRank json.currentStatus ≥ aggRank prevA →
      mergeAgg prevA json = some json) ∧
    (getStatusRank json.currentStatus < aggRank prevA →
      mergeAgg prevA json = prevA) ∧
    (getStatusRank (some next.stage) ≥ workerRank prevW →
      mergeWorker prevW next = some next) ∧
    (getStatusRank (some next.stage) < workerRank prevW →
      mergeWorker prevW next = prevW) ∧
    aggTickStep prevA none = prevA ∧
    (∀ w, prevW = some w → workerTickStep prevW none = prevW) ∧
    effectiveWorkerStage (workerTickStep prevW none)
      = effectiveWorkerStage prevW := by
  refine ⟨?_, ?_, ?_, ?_, ?_, ?_, rfl, ?_, ?_⟩
  · cases fa with
    | none => exact Nat.le_refl _
    | some j =>
      show aggRank (mergeAgg prevA j) ≥ aggRank prevA
      rw [aggRank_mergeAgg]
      exact Nat.le_max_left _ _
  · cases fw with
    | none =>
      cases prevW with
      | none => decide
      | some w => exact Nat.le_refl _
    | some n =>
      show workerRank (mergeWorker prevW n) ≥ workerRank prevW
      rw [workerRank_mergeWorker]
      exact Nat.le_max_left _ _
  · intro h
    cases prevA with
    | none => rfl
    | some q =>
      show (if getStatusRank json.currentStatus ≥ getStatusRank q.currentStatus
            then some json else some q) = some json
      exact if_pos h
  · intro h
    cases prevA with
    | none =>
      exfalso
      have h0 : aggRank (none : Option AggStatus) = 0 := by decide
      omega
    | some q =>
      have hq : aggRank (some q) = getStatusRank q.currentStatus := rfl
      show (if getStatusRank json.currentStatus ≥ getStatusRank q.currentStatus
            then some json else some q) = some q
      exact if_neg (by omega)
  · intro h
    cases prevW with
    | none => rfl
    | some q =>
      show (if getStatusRank (some next.stage) ≥ getStatusRank (some q.stage)
            then some next else some q) = some next
      exact if_pos h
  · intro h
    cases prevW with
    | none =>
      exfalso
      have h0 : workerRank (none : Option WorkerStatus) = 0 := by decide
      omega
    | some q =>
      have hq : workerRank (some q) = getStatusRank (some q.stage) := rfl
      show (if getStatusRank (some next.stage) ≥ getStatusRank (some q.stage)
            then some next else some q) = some q
      exact if_neg (by omega)
  · intro w hw
    subst hw
    rfl
  · cases prevW with
    | none => decide
    | some w => rfl

/-- C1 witness: concrete merges — a higher-rank fetch replaces, a
lower-rank fetch is discarded, and a failed fetch keeps the previous
worker status. -/
theorem merge_monotone_no_regress_c1_witness :
    mergeAgg (some ⟨some "sent", none⟩) ⟨some "executed", none⟩
        = some ⟨some "executed", none⟩ ∧
    mergeAgg (some ⟨some "executed", none⟩) ⟨some "sent", none⟩
        = some ⟨some "executed", none⟩ ∧
    mergeWorker (some (mkW "sent")) (mkW "executed") = some (mkW "executed") ∧
    mergeWorker (some (mkW "executed")) (mkW "sent") = some (mkW "executed") ∧
    workerTickStep (some (mkW "sent")) none = some (mkW "sent") := by
  refine ⟨?_, ?_, ?_, ?_, ?_⟩
  · exact (merge_monotone_no_regress_c1 (some ⟨some "sent", none⟩) none none
      none ⟨some "executed", none⟩ (mkW "x")).2.2.1 (by decide)
  · exact (merge_monotone_no_regress_c1 (some ⟨some "executed", none⟩) none
      none none ⟨some "sent", none⟩ (mkW "x")).2.2.2.1 (by decide)
  · exact (merge_monotone_no_regress_c1 none none (some (mkW "sent")) none
      ⟨none, none⟩ (mkW "executed")).2.2.2.2.1 (by decide)
  · exact (merge_monotone_no_regress_c1 none none (some (mkW "executed")) none
      ⟨none, none⟩ (mkW "sent")).2.2.2.2.2.1 (by decide)
  · exact (merge_monotone_no_regress_c1 none none (some (mkW "sent")) none
      ⟨none, none⟩ (mkW "x")).2.2.2.2.2.2.2.1 (mkW "sent") rfl

/-- C4 counterexample: the merge is not order-independent in the published
stage name. The on-chain correlator's `verified` stage and the default
`unknown` stage both rank 0, so feeding `verified` then `unknown` publishes
`unknown`, while the reverse interleaving publishes `verified`. -/
theorem merge_stage_order_dependent_c4 :
    (List.foldl mergeWorker none [mkW "verified", mkW "unknown"]).map
        WorkerStatus.stage = some "unknown" ∧
    (List.foldl mergeWorker none [mkW "unknown", mkW "verified"]).map
        WorkerStatus.stage = some "verified" ∧
    ("unknown" : String) ≠ "verified" := by
  decide

/-- C4 (amended): the status rank merge is idempotent — merging the same
status again changes nothing — and the final published stage RANK is
independent of the interleaving order: any permutation of the fetched
statuses yields the same final published rank. (The stage NAME itself can
differ between orders when two distinct fetched stage names share a rank,
e.g. `verified` and `unknown`, both rank 0 — see the counterexample.) -/
theorem merge_idempotent_rank_commutative_c4
    (p : Option WorkerStatus) (n : WorkerStatus) (l l' : List WorkerStatus)
    (hperm : l.Perm l') :
    mergeWorker (mergeWorker p n) n = mergeWorker p n ∧
    workerRank (List.foldl mergeWorker p l)
      = workerRank (List.foldl mergeWorker p l') := by
  constructor
  · cases p with
    | none =>
      show mergeWorker (some n) n = some n
      simp [mergeWorker]
    | some q =>
      by_cases h : getStatusRank (some n.stage) ≥ getStatusRank (some q.stage)
      · have e1 : mergeWorker (some q) n = some n := by
          show (if getStatusRank (some n.stage) ≥ getStatusRank (some q.stage)
                then some n else some q) = some n
          exact if_pos h
        rw [e1]
        simp [mergeWorker]
      · have e1 : mergeWorker (some q) n = some q := by
          show (if getStatusRank (some n.stage) ≥ getStatusRank (some q.stage)
                then some n else some q) = some q
          exact if_neg h
        rw [e1, e1]
  · rw [workerRank_foldl, workerRank_foldl]
    haveI : RightCommutative
        (fun (r : Nat) (w : WorkerStatus) =>
          max r (getStatusRank (some w.stage))) :=
      ⟨fun b a₁ a₂ => by
        show max (max b (getStatusRank (some a₁.stage)))
              (getStatusRank (some a₂.stage))
          = max (max b (getStatusRank (some a₂.stage)))
              (getStatusRank (some a₁.stage))
        omega⟩
    exact hperm.foldl_eq (workerRank p)

/-- C4 witness: idempotence at a concrete merge, and equal final rank for
the two interleavings of `sent` and `executed`. -/
theorem merge_idempotent_rank_commutative_c4_witness :
    mergeWorker (mergeWorker (some (mkW "sent")) (mkW "executed"))
        (mkW "executed")
      = mergeWorker (some (mkW "sent")) (mkW "executed") ∧
    workerRank (List.foldl mergeWorker none [mkW "sent", mkW "executed"])
      = workerRank (List.foldl mergeWorker none [mkW "executed", mkW "sent"]) :=
  ⟨(merge_idempotent_rank_commutative_c4 (some (mkW "sent")) (mkW "executed")
      [] [] (List.Perm.refl [])).1,
   (merge_idempotent_rank_commutative_c4 none (mkW "x")
      [mkW "sent", mkW "executed"] [mkW "executed", mkW "sent"]
      (List.Perm.swap (mkW "executed") (mkW "sent") [])).2⟩

/-- C10: the stage rank function is total with range inside [0,5] (`none`
models `null`/`undefined`); any stage name whose lowercasing is outside the
recognized list ranks as 0 — in particular the `inflight` and `verified`
stages produced by the on-chain correlator rank as 0 — and therefore a
fetched `verified` or `inflight` status never replaces a previously
published status of rank 1 or higher. -/
theorem rank_total_unrecognized_zero_c10
    (s : Option String) (name : String) (p n : WorkerStatus) :
    getStatusRank s ≤ 5 ∧
    (toLowerStr name ∉ stageOrder → getStatusRank (some name) = 0) ∧
    getStatusRank (some "inflight") = 0 ∧
    getStatusRank (some "verified") = 0 ∧
    (1 ≤ getStatusRank (some p.stage) →
      n.stage = "verified" ∨ n.stage = "inflight" →
      mergeWorker (some p) n = some p) := by
  refine ⟨getStatusRank_le_five s, ?_, by decide, by decide, ?_⟩
  · intro hns
    unfold getStatusRank
    rw [show (some name).getD "unknown" = name from rfl,
      indexOfStr_eq_none hns]
  · intro hp hn
    have hzero : getStatusRank (some n.stage) = 0 := by
      rcases hn with h | h <;> rw [h] <;> decide
    show (if getStatusRank (some n.stage) ≥ getStatusRank (some p.stage)
          then some n else some p) = some p
    rw [if_neg (by omega)]

/-- C2: the Packet Correlator's derived stage follows the priority order —
`executed` exactly when some delivered-event log matches the
(source-eid, padded-sender) predicate, else `verified` exactly when some
verified-event log matches, else `inflight`/`unknown` from the source
receipt (`inflight` when present and successful or absent, `unknown` when
present and failed). In particular `executed` is never reported without a
matching delivered-event log. -/
theorem stage_priority_c2
    (srcEid : Int) (oftSrc : String) (dl vl : List RawLog)
    (r : Option TxReceipt) :
    (onchainStage srcEid oftSrc dl vl r = "executed"
      ↔ dl.any (logMatches "PacketDelivered" srcEid (pad32 oftSrc)) = true) ∧
    (dl.any (logMatches "PacketDelivered" srcEid (pad32 oftSrc)) = false →
      (onchainStage srcEid oftSrc dl vl r = "verified"
        ↔ vl.any (logMatches "PacketVerified" srcEid (pad32 oftSrc)) = true)) ∧
    (dl.any (logMatches "PacketDelivered" srcEid (pad32 oftSrc)) = false →
      vl.any (logMatches "PacketVerified" srcEid (pad32 oftSrc)) = false →
      ∀ rr, r = some rr → sentOkB rr = true →
        onchainStage srcEid oftSrc dl vl r = "inflight") ∧
    (dl.any (logMatches "PacketDelivered" srcEid (pad32 oftSrc)) = false →
      vl.any (logMatches "PacketVerified" srcEid (pad32 oftSrc)) = false →
      ∀ rr, r = some rr → sentOkB rr = false →
        onchainStage srcEid oftSrc dl vl r = "unknown") ∧
    (dl.any (logMatches "PacketDelivered" srcEid (pad32 oftSrc)) = false →
      vl.any (logMatches "PacketVerified" srcEid (pad32 oftSrc)) = false →
      r = none →
      onchainStage srcEid oftSrc dl vl r = "inflight") := by
  cases hdl : dl.find? (logMatches "PacketDelivered" srcEid (pad32 oftSrc)) with
  | some x =>
    have hany : dl.any (logMatches "PacketDelivered" srcEid (pad32 oftSrc)) = true :=
      List.any_eq_true.mpr
        ⟨x, List.mem_of_find?_eq_some hdl, List.find?_some hdl⟩
    have hst : onchainStage srcEid oftSrc dl vl r = "executed" := by
      unfold onchainStage
      rw [hdl]
    refine ⟨?_, ?_, ?_, ?_, ?_⟩
    · rw [hst, hany]
      simp
    · intro h
      rw [h] at hany
      exact Bool.noConfusion hany
    · intro h
      rw [h] at hany
      exact Bool.noConfusion hany
    · intro h
      rw [h] at hany
      exact Bool.noConfusion hany
    · intro h
      rw [h] at hany
      exact Bool.noConfusion hany
  | none =>
    have hany : dl.any (logMatches "PacketDelivered" srcEid (pad32 oftSrc)) = false :=
      List.any_eq_false.mpr (List.find?_eq_none.mp hdl)
    cases hvl : vl.find? (logMatches "PacketVerified" srcEid (pad32 oftSrc)) with
    | some y =>
      have hanyV : vl.any (logMatches "PacketVerified" srcEid (pad32 oftSrc)) = true :=
        List.any_eq_true.mpr
          ⟨y, List.mem_of_find?_eq_some hvl, List.find?_some hvl⟩
      have hst : onchainStage srcEid oftSrc dl vl r = "verified" := by
        unfold onchainStage
        rw [hdl, hvl]
      refine ⟨?_, ?_, ?_, ?_, ?_⟩
      · rw [hst, hany]
        exact ⟨fun h => absurd h (by decide), fun h => Bool.noConfusion h⟩
      · intro _
        rw [hst, hanyV]
        simp
      · intro _ hV
        rw [hV] at hanyV
        exact Bool.noConfusion hanyV
      · intro _ hV
        rw [hV] at hanyV
        exact Bool.noConfusion hanyV
      · intro _ hV
        rw [hV] at hanyV
        exact Bool.noConfusion hanyV
    | none =>
      have hanyV : vl.any (logMatches "PacketVerified" srcEid (pad32 oftSrc)) = false :=
        List.any_eq_false.mpr (List.find?_eq_none.mp hvl)
      have hstR : ∀ rr, r = some rr →
          onchainStage srcEid oftSrc dl vl r
            = (if sentOkB rr then "inflight" else "unknown") := by
        intro rr hr
        subst hr
        unfold onchainStage
        rw [hdl, hvl]
      have hstN : r = none → onchainStage srcEid oftSrc dl vl r = "inflight" := by
        intro hr
        subst hr
        unfold onchainStage
        rw [hdl, hvl]
      have hne : onchainStage srcEid oftSrc dl vl r ≠ "executed" ∧
          onchainStage srcEid oftSrc dl vl r ≠ "verified" := by
        cases r with
        | none =>
          rw [hstN rfl]
          exact ⟨by decide, by decide⟩
        | some rr =>
          rw [hstR rr rfl]
          by_cases hs : sentOkB rr = true
          · rw [if_pos hs]
            exact ⟨by decide, by decide⟩
          · rw [if_neg hs]
            exact ⟨by decide, by decide⟩
      refine ⟨?_, ?_, ?_, ?_, ?_⟩
      · rw [hany]
        exact ⟨fun h => absurd h hne.1, fun h => Bool.noConfusion h⟩
      · intro _
        rw [hanyV]
        exact ⟨fun h => absurd h hne.2, fun h => Bool.noConfusion h⟩
      · intro _ _ rr hr hs
        rw [hstR rr hr, if_pos hs]
      · intro _ _ rr hr hs
        rw [hstR rr hr, if_neg (by rw [hs]; exact Bool.noConfusion)]
      · intro _ _ hr
        exact hstN hr

/-- C2 witness: with no logs and no receipt the stage is `inflight`; with a
single matching delivered-event log the stage is `executed`. -/
theorem stage_priority_c2_witness :
    onchainStage 40217 "0x00000000000000000000000000000000000000ab" [] [] none
      = "inflight" ∧
    onchainStage 40217 "0x00000000000000000000000000000000000000ab"
      [⟨some ⟨"PacketDelivered",
          some ⟨40217,
            "0x00000000000000000000000000000000000000000000000000000000000000ab",
            7⟩, some "0xreceiver"⟩, "0xdesttx"⟩] [] none
      = "executed" := by
  constructor
  · exact (stage_priority_c2 40217 "0x00000000000000000000000000000000000000ab"
      [] [] none).2.2.2.2 (by decide) (by decide) rfl
  · exact (stage_priority_c2 40217 "0x00000000000000000000000000000000000000ab"
      [⟨some ⟨"PacketDelivered",
          some ⟨40217,
            "0x00000000000000000000000000000000000000000000000000000000000000ab",
            7⟩, some "0xreceiver"⟩, "0xdesttx"⟩] [] none).1.mpr (by decide)

/-- C7 counterexample: the claim omits the clamp at block 0. With no source
receipt, no scanWindow supplied and a current destination height of 100,
the code computes `fromBlock = max 0 (100 - 20000) = 0`, not
`100 - 20000 = -19900` as the claim's formula states. -/
theorem scan_range_clamp_c7 :
    (computeScanRange none 100 none).1 = 0 ∧
    (100 : Int) - 20000 ≠ 0 := by
  decide

/-- C7 (amended): the scan range is `toBlock` = the current destination
block height, and `fromBlock` = the source receipt's block number when the
receipt and its block number are known, else
`max 0 (currentDestBlock - scanWindow)` with the window defaulting to
20,000 blocks when no scanWindow is supplied. -/
theorem scan_range_c7
    (srcReceipt : Option TxReceipt) (toBlock : Int) (scanWindow : Option Int)
    (rr : TxReceipt) (bn : Int) :
    (computeScanRange srcReceipt toBlock scanWindow).2 = toBlock ∧
    (srcReceipt = some rr → rr.blockNumber = some bn →
      (computeScanRange srcReceipt toBlock scanWindow).1 = bn) ∧
    (srcReceipt = some rr → rr.blockNumber = none →
      (computeScanRange srcReceipt toBlock scanWindow).1
        = max 0 (toBlock - scanWindow.getD 20000)) ∧
    (srcReceipt = none →
      (computeScanRange srcReceipt toBlock scanWindow).1
        = max 0 (toBlock - scanWindow.getD 20000)) ∧
    (computeScanRange none toBlock none).1 = max 0 (toBlock - 20000) := by
  refine ⟨rfl, ?_, ?_, ?_, rfl⟩
  · intro hr hb
    subst hr
    show (match rr.blockNumber with
          | some b => b
          | none => max 0 (toBlock - scanWindow.getD 20000)) = bn
    rw [hb]
  · intro hr hb
    subst hr
    show (match rr.blockNumber with
          | some b => b
          | none => max 0 (toBlock - scanWindow.getD 20000)) = _
    rw [hb]
  · intro hr
    subst hr
    rfl

/-- C7 witness: a receipt anchored at block 123 gives `fromBlock = 123`;
no receipt at height 50,000 gives the default window `fromBlock = 30,000`;
`toBlock` is always the destination height. -/
theorem scan_range_c7_witness :
    (computeScanRange (some ⟨some 1, some 123⟩) 50000 none).2 = 50000 ∧
    (computeScanRange (some ⟨some 1, some 123⟩) 50000 none).1 = 123 ∧
    (computeScanRange none 50000 none).1 = max 0 ((50000 : Int) - 20000) := by
  have h := scan_range_c7 (some ⟨some 1, some 123⟩) 50000 none
    ⟨some 1, some 123⟩ 123
  have h2 := scan_range_c7 none 50000 none ⟨some 1, some 123⟩ 123
  exact ⟨h.1, h.2.1 rfl rfl, h2.2.2.2.1 rfl⟩

/-- C3: for every valid decimal amount string and decimals, the built
SendParam satisfies `minAmountLD = floor(parseUnits(a,d) * 9900 / 10000)`
over exact integers (Nat division is the floor), and consequently
`minAmountLD ≤ amountLD`. -/
theorem send_param_min_amount_c3
    (cfg : NetworkConfigL) (a recv : String) (d : Option Nat)
    (opts : Option String) (p : SendParamL) (v : Nat)
    (hp : buildSendParam cfg a recv d opts = some p)
    (hv : parseUnits a (d.getD 18) = some v) :
    p.amountLD = v ∧
    p.minAmountLD = v * 9900 / 10000 ∧
    p.minAmountLD ≤ p.amountLD := by
  unfold buildSendParam at hp
  rw [hv] at hp
  cases hp
  refine ⟨rfl, rfl, ?_⟩
  show v * 9900 / 10000 ≤ v
  calc v * 9900 / 10000
      ≤ v * 10000 / 10000 :=
        Nat.div_le_div_right (Nat.mul_le_mul_left v (by norm_num))
    _ = v := Nat.mul_div_cancel v (by norm_num)

/-- C3 witness: amount "1.5" with 2 decimals parses to 150 base units;
the built SendParam carries `minAmountLD = 148 = floor(150 * 0.99)` which
is at most the amount. -/
theorem send_param_min_amount_c3_witness :
    (⟨40161, addressToBytes32 "0xAB", 150, 148, "0x", "0x", "0x"⟩
        : SendParamL).amountLD = 150 ∧
    (⟨40161, addressToBytes32 "0xAB", 150, 148, "0x", "0x", "0x"⟩
        : SendParamL).minAmountLD = 150 * 9900 / 10000 ∧
    (⟨40161, addressToBytes32 "0xAB", 150, 148, "0x", "0x", "0x"⟩
        : SendParamL).minAmountLD
      ≤ (⟨40161, addressToBytes32 "0xAB", 150, 148, "0x", "0x", "0x"⟩
        : SendParamL).amountLD :=
  send_param_min_amount_c3 ⟨"Sepolia", 40161⟩ "1.5" "0xAB" (some 2) none
    ⟨40161, addressToBytes32 "0xAB", 150, 148, "0x", "0x", "0x"⟩ 150
    (by decide) (by decide)

/-- C5: when the primary send fails with a message containing
"missing trie node", exactly one raw legacy-type (`type 0`) fallback
transaction is issued to the OFT contract with gasLimit 600000 and the
same total attached value — `nativeFee + amountLD` for a native-asset
adapter, `nativeFee` otherwise; any other failure message is re-thrown
unmodified with no fallback transaction. -/
theorem trie_fallback_c5
    (usingNativeAdapter : Bool) (fee : MessagingFee) (amtLD : Nat)
    (oftTarget : String) (e : SendErrShape) (h : String) :
    (containsSub (errMessage e) "missing trie node" = true →
      submitSend usingNativeAdapter fee amtLD oftTarget (.err e)
        = .fallbackTx oftTarget
            (totalValueOf usingNativeAdapter fee.nativeFee amtLD) 600000 0) ∧
    (containsSub (errMessage e) "missing trie node" = false →
      submitSend usingNativeAdapter fee amtLD oftTarget (.err e)
        = .rethrown e) ∧
    submitSend usingNativeAdapter fee amtLD oftTarget (.ok h)
      = .sent h (totalValueOf usingNativeAdapter fee.nativeFee amtLD) ∧
    totalValueOf true fee.nativeFee amtLD = fee.nativeFee + amtLD ∧
    totalValueOf false fee.nativeFee amtLD = fee.nativeFee := by
  refine ⟨?_, ?_, rfl, rfl, rfl⟩
  · intro hc
    show (if containsSub (errMessage e) "missing trie node" then
            SubmitOutcome.fallbackTx oftTarget
              (totalValueOf usingNativeAdapter fee.nativeFee amtLD) 600000 0
          else SubmitOutcome.rethrown e)
        = SubmitOutcome.fallbackTx oftTarget
            (totalValueOf usingNativeAdapter fee.nativeFee amtLD) 600000 0
    exact if_pos hc
  · intro hc
    show (if containsSub (errMessage e) "missing trie node" then
            SubmitOutcome.fallbackTx oftTarget
              (totalValueOf usingNativeAdapter fee.nativeFee amtLD) 600000 0
          else SubmitOutcome.rethrown e)
        = SubmitOutcome.rethrown e
    exact if_neg (by rw [hc]; exact Bool.noConfusion)

/-- C5 witness: a "missing trie node" failure on a native-asset adapter
send with nativeFee 5 and amount 7 issues the raw fallback with value 12,
gasLimit 600000 and type 0; a revert message is re-thrown unmodified. -/
theorem trie_fallback_c5_witness :
    submitSend true ⟨5, 0⟩ 7 "0xoft"
        (.err ⟨some "err: missing trie node at 0xdead", none⟩)
      = .fallbackTx "0xoft" 12 600000 0 ∧
    submitSend false ⟨5, 0⟩ 7 "0xoft" (.err ⟨none, some "execution reverted"⟩)
      = .rethrown ⟨none, some "execution reverted"⟩ := by
  constructor
  · exact (trie_fallback_c5 true ⟨5, 0⟩ 7 "0xoft"
      ⟨some "err: missing trie node at 0xdead", none⟩ "h").1 (by decide)
  · exact (trie_fallback_c5 false ⟨5, 0⟩ 7 "0xoft"
      ⟨none, some "execution reverted"⟩ "h").2.1 (by decide)

/-- C6: amount validation happens strictly before the fee quote — when the
amount fails to parse, is zero, or exceeds the known balance, the flow
aborts before reaching the quote or the submission; conversely the flow
only reaches the fee quote (and the submission) when the amount parsed to
a positive value within the known balance. -/
theorem validation_before_quote_c6
    (resolvedAmount : String) (decimals : Nat) (balanceWei : Option Nat) :
    (parseUnits resolvedAmount decimals = none →
      sendFlowSteps resolvedAmount decimals balanceWei = []) ∧
    (∀ amt, parseUnits resolvedAmount decimals = some amt → amt = 0 →
      sendFlowSteps resolvedAmount decimals balanceWei = []) ∧
    (∀ amt b, parseUnits resolvedAmount decimals = some amt →
      balanceWei = some b → b < amt →
      sendFlowSteps resolvedAmount decimals balanceWei = []) ∧
    (FlowStep.quoteFee ∈ sendFlowSteps resolvedAmount decimals balanceWei →
      ∃ amt, parseUnits resolvedAmount decimals = some amt ∧ 0 < amt ∧
        ∀ b, balanceWei = some b → amt ≤ b) ∧
    (FlowStep.submitTx ∈ sendFlowSteps resolvedAmount decimals balanceWei →
      ∃ amt, parseUnits resolvedAmount decimals = some amt ∧ 0 < amt ∧
        ∀ b, balanceWei = some b → amt ≤ b) := by
  have hreach : ∀ step : FlowStep,
      step ∈ sendFlowSteps resolvedAmount decimals balanceWei →
      ∃ amt, parseUnits resolvedAmount decimals = some amt ∧ 0 < amt ∧
        ∀ b, balanceWei = some b → amt ≤ b := by
    intro step hmem
    unfold sendFlowSteps at hmem
    cases hp : parseUnits resolvedAmount decimals with
    | none =>
      rw [hp] at hmem
      simp at hmem
    | some amt =>
      rw [hp] at hmem
      have hmem2 : step ∈
          (if exceedsBalance amt balanceWei then ([] : List FlowStep)
           else if amt = 0 then []
           else [FlowStep.quoteFee, FlowStep.submitTx]) := hmem
      by_cases hb : exceedsBalance amt balanceWei = true
      · rw [if_pos hb] at hmem2
        simp at hmem2
      · rw [if_neg hb] at hmem2
        by_cases h0 : amt = 0
        · rw [if_pos h0] at hmem2
          simp at hmem2
        · refine ⟨amt, rfl, Nat.pos_of_ne_zero h0, ?_⟩
          intro b hb2
          rw [hb2] at hb
          have hgtb : ¬ amt > b := by
            intro hgt
            exact hb (decide_eq_true hgt)
          omega
  refine ⟨?_, ?_, ?_, hreach FlowStep.quoteFee, hreach FlowStep.submitTx⟩
  · intro h
    unfold sendFlowSteps
    rw [h]
  · intro amt h h0
    unfold sendFlowSteps
    rw [h]
    show (if exceedsBalance amt balanceWei then ([] : List FlowStep)
          else if amt = 0 then []
          else [FlowStep.quoteFee, FlowStep.submitTx]) = []
    by_cases hb : exceedsBalance amt balanceWei = true
    · rw [if_pos hb]
    · rw [if_neg hb, if_pos h0]
  · intro amt b h hb hlt
    unfold sendFlowSteps
    rw [h]
    show (if exceedsBalance amt balanceWei then ([] : List FlowStep)
          else if amt = 0 then []
          else [FlowStep.quoteFee, FlowStep.submitTx]) = []
    rw [hb]
    have hc : exceedsBalance amt (some b) = true := decide_eq_true hlt
    rw [if_pos hc]

/-- C6 witness: an unparsable amount, a zero amount, and an over-balance
amount each abort the flow before any quote or submission. -/
theorem validation_before_quote_c6_witness :
    sendFlowSteps "abc" 18 none = [] ∧
    sendFlowSteps "0" 18 none = [] ∧
    sendFlowSteps "5" 0 (some 3) = [] := by
  refine ⟨?_, ?_, ?_⟩
  · exact (validation_before_quote_c6 "abc" 18 none).1 (by decide)
  · exact (validation_before_quote_c6 "0" 18 none).2.1 0 (by decide) rfl
  · exact (validation_before_quote_c6 "5" 0 (some 3)).2.2.1 5 3 (by decide)
      rfl (by decide)

/-- C8: the agg-status endpoint returns 400 when `txHash` is missing or
not a string; 500 with an error when the aggregator base URL is
unconfigured (falsy); passes the upstream JSON through unchanged on a
2xx upstream response; and on a non-2xx upstream response returns the same
status code with `upstreamStatus` set and a credential-check hint exactly
when the upstream status is 401 or 403. -/
theorem agg_status_routes_c8
    (s : String) (a b : Option String) (up : UpstreamResponse) (j : String) :
    (aggStatusPOST .missing a b up).status = 400 ∧
    (aggStatusPOST .nonString a b up).status = 400 ∧
    (s ≠ "" → truthyStr (resolveBase a b) = false →
      (aggStatusPOST (.strVal s) a b up).status = 500 ∧
      (aggStatusPOST (.strVal s) a b up).error.isSome = true) ∧
    (s ≠ "" → ∀ base, resolveBase a b = some base → base ≠ "" →
      resOk up.status = true → up.jsonBody = some j →
      aggStatusPOST (.strVal s) a b up
        = ⟨200, none, none, none, none, none, some j⟩) ∧
    (s ≠ "" → ∀ base, resolveBase a b = some base → base ≠ "" →
      resOk up.status = false →
      (aggStatusPOST (.strVal s) a b up).status = up.status ∧
      (aggStatusPOST (.strVal s) a b up).upstreamStatus = some up.status ∧
      ((aggStatusPOST (.strVal s) a b up).hint.isSome = true ↔
        (up.status = 401 ∨ up.status = 403))) := by
  have hred : ∀ hs : ¬ s = "",
      aggStatusPOST (.strVal s) a b up
        = (match resolveBase a b with
           | none => noBaseResp
           | some base =>
             if base = "" then noBaseResp else aggUpstreamResp up) := by
    intro hs
    show (if s = "" then badRequestResp
          else match resolveBase a b with
               | none => noBaseResp
               | some base =>
                 if base = "" then noBaseResp else aggUpstreamResp up)
        = _
    rw [if_neg hs]
  have hred2 : ∀ base : String,
      (match some base with
       | none => noBaseResp
       | some base => if base = "" then noBaseResp else aggUpstreamResp up)
        = (if base = "" then noBaseResp else aggUpstreamResp up) :=
    fun _ => rfl
  refine ⟨rfl, rfl, ?_, ?_, ?_⟩
  · intro hs hfalsy
    rw [hred hs]
    cases hrb : resolveBase a b with
    | none =>
      exact ⟨rfl, rfl⟩
    | some base =>
      rw [hrb] at hfalsy
      have hfalsy2 : decide (base ≠ "") = false := hfalsy
      have hbase : base = "" := not_not.mp (of_decide_eq_false hfalsy2)
      rw [hred2 base, if_pos hbase]
      exact ⟨rfl, rfl⟩
  · intro hs base hrb hbne hok hj
    rw [hred hs, hrb, hred2 base, if_neg hbne]
    unfold aggUpstreamResp
    rw [if_pos hok, hj]
  · intro hs base hrb hbne hnok
    rw [hred hs, hrb, hred2 base, if_neg hbne]
    unfold aggUpstreamResp
    rw [if_neg (by rw [hnok]; exact Bool.noConfusion)]
    by_cases h404 : up.status = 404
    · rw [if_pos h404]
      refine ⟨rfl, rfl, ?_⟩
      constructor
      · intro hh
        exact Bool.noConfusion hh
      · intro hh
        rcases hh with h1 | h1 <;> exact absurd h1 (by omega)
    · rw [if_neg h404]
      by_cases h4x : up.status = 401 ∨ up.status = 403
      · rw [if_pos h4x]
        exact ⟨rfl, rfl, fun _ => h4x, fun _ => rfl⟩
      · rw [if_neg h4x]
        refine ⟨rfl, rfl, ?_⟩
        exact ⟨fun hh => Bool.noConfusion hh, fun hh => absurd hh h4x⟩

/-- C8 witness: a missing `txHash` gives 400; an unconfigured base gives
500; a 200 upstream passes its JSON through; a 403 upstream propagates
status 403 with `upstreamStatus` and a credential hint. -/
theorem agg_status_routes_c8_witness :
    (aggStatusPOST .missing none none ⟨200, none, ""⟩).status = 400 ∧
    (aggStatusPOST (.strVal "0xabc") none none ⟨200, none, ""⟩).status = 500 ∧
    aggStatusPOST (.strVal "0xabc") (some "https://agg") none
        ⟨200, some "PAYLOAD", ""⟩
      = ⟨200, none, none, none, none, none, some "PAYLOAD"⟩ ∧
    (aggStatusPOST (.strVal "0xabc") (some "https://agg") none
        ⟨403, none, "forbidden"⟩).status = 403 ∧
    (aggStatusPOST (.strVal "0xabc") (some "https://agg") none
        ⟨403, none, "forbidden"⟩).upstreamStatus = some 403 ∧
    (aggStatusPOST (.strVal "0xabc") (some "https://agg") none
        ⟨403, none, "forbidden"⟩).hint.isSome = true := by
  have h1 := agg_status_routes_c8 "0xabc" none none ⟨200, none, ""⟩ "PAYLOAD"
  have h2 := agg_status_routes_c8 "0xabc" (some "https://agg") none
    ⟨200, some "PAYLOAD", ""⟩ "PAYLOAD"
  have h3 := agg_status_routes_c8 "0xabc" (some "https://agg") none
    ⟨403, none, "forbidden"⟩ "x"
  have h3e := h3.2.2.2.2 (by decide) "https://agg" rfl (by decide) (by decide)
  exact ⟨h1.1, (h1.2.2.1 (by decide) (by decide)).1,
    h2.2.2.2.1 (by decide) "https://agg" rfl (by decide) (by decide) rfl,
    h3e.1, h3e.2.1, h3e.2.2.mpr (Or.inr rfl)⟩

theorem truthyStr_redactSecret (v : Option String) :
    truthyStr (redactSecret v) = truthyStr v := by
  cases v with
  | none => rfl
  | some s =>
    by_cases h : s = ""
    · subst h
      decide
    · have hr : redactSecret (some s) = some "redacted" := by
        show (if s = "" then some "" else some "redacted") = some "redacted"
        rw [if_neg h]
      rw [hr, (by decide : truthyStr (some "redacted") = true)]
      exact (decide_eq_true h).symm

/-- C9: the env-check response depends on the secret configuration values
(aggregator base URL, username, password) only through their truthiness
(presence): two environments agreeing on which secrets are present (and on
the non-secret networks configuration) produce identical responses, and
replacing every secret value by a fixed placeholder leaves the response
unchanged — so no raw secret value can appear in any response. -/
theorem env_check_presence_only_c9
    (nets : Except String (List (String × NetCfg))) (e1 e2 : EnvSecrets)
    (hbase : truthyStr e1.statusApiBase = truthyStr e2.statusApiBase)
    (hnp : truthyStr e1.npStatusApiBase = truthyStr e2.npStatusApiBase)
    (huser : truthyStr e1.statusApiUsername = truthyStr e2.statusApiUsername)
    (hpass : truthyStr e1.statusApiPassword = truthyStr e2.statusApiPassword) :
    envCheckGET nets e1 = envCheckGET nets e2 ∧
    envCheckGET nets e1 = envCheckGET nets (redactEnv e1) := by
  have key : ∀ f1 f2 : EnvSecrets,
      truthyStr f1.statusApiBase = truthyStr f2.statusApiBase →
      truthyStr f1.npStatusApiBase = truthyStr f2.npStatusApiBase →
      truthyStr f1.statusApiUsername = truthyStr f2.statusApiUsername →
      truthyStr f1.statusApiPassword = truthyStr f2.statusApiPassword →
      envCheckGET nets f1 = envCheckGET nets f2 := by
    intro f1 f2 k1 k2 k3 k4
    cases nets with
    | ok cfgs =>
      unfold envCheckGET
      rw [k1, k2, k3, k4]
    | error msg =>
      unfold envCheckGET
      rw [k1, k2, k3, k4]
  exact ⟨key e1 e2 hbase hnp huser hpass,
    key e1 (redactEnv e1)
      (truthyStr_redactSecret e1.statusApiBase).symm
      (truthyStr_redactSecret e1.npStatusApiBase).symm
      (truthyStr_redactSecret e1.statusApiUsername).symm
      (truthyStr_redactSecret e1.statusApiPassword).symm⟩

/-- C9 witness: two environments with different secret values but equal
presence flags get identical env-check responses, and redacting the first
environment's secrets leaves its response unchanged. -/
theorem env_check_presence_only_c9_witness :
    envCheckGET
        (.ok [("hii", ⟨"HII Network", 22988, "https://rpc.hii", "0xEND",
          "0xOFT", none⟩)])
        ⟨some "https://aggA", none, some "alice", some "secret1"⟩
      = envCheckGET
        (.ok [("hii", ⟨"HII Network", 22988, "https://rpc.hii", "0xEND",
          "0xOFT", none⟩)])
        ⟨some "https://aggB", none, some "bob", some "secret2"⟩ ∧
    envCheckGET
        (.ok [("hii", ⟨"HII Network", 22988, "https://rpc.hii", "0xEND",
          "0xOFT", none⟩)])
        ⟨some "https://aggA", none, some "alice", some "secret1"⟩
      = envCheckGET
        (.ok [("hii", ⟨"HII Network", 22988, "https://rpc.hii", "0xEND",
          "0xOFT", none⟩)])
        (redactEnv ⟨some "https://aggA", none, some "alice", some "secret1"⟩) :=
  env_check_presence_only_c9
    (.ok [("hii", ⟨"HII Network", 22988, "https://rpc.hii", "0xEND",
      "0xOFT", none⟩)])
    ⟨some "https://aggA", none, some "alice", some "secret1"⟩
    ⟨some "https://aggB", none, some "bob", some "secret2"⟩
    (by decide) (by decide) (by decide) (by decide)

/-- C10 witness: concrete rank evaluations and a concrete `verified` fetch
that fails to displace a published `sent` (rank 1). -/
theorem rank_total_unrecognized_zero_c10_witness :
    getStatusRank (some "committed") ≤ 5 ∧
    getStatusRank (some "somethingelse") = 0 ∧
    getStatusRank (some "inflight") = 0 ∧
    getStatusRank (some "verified") = 0 ∧
    mergeWorker (some (mkW "sent")) (mkW "verified") = some (mkW "sent") := by
  have h := rank_total_unrecognized_zero_c10 (some "committed")
    "somethingelse" (mkW "sent") (mkW "verified")
  exact ⟨h.1, h.2.1 (by decide), h.2.2.1, h.2.2.2.1,
    h.2.2.2.2 (by decide) (Or.inl rfl)⟩

end LzApp
